import Mathlib

/-!
Shallow embedding of the waf unit-test tool bdeunittest.py
(lib/python/bdebuild/waf/bdeunittest.py).

Conventions of the embedding:
* Python floats used for wall-clock durations are modelled as exact
  rationals; the percent-d conversion of a float (truncation toward zero)
  is the function py_int.
* Environment maps (os.environ and copies of it) are functions from
  variable name to Option String; a missing variable maps to none.
* Logging (Logs.pprint, Logs.info, prints into the coverage log file) is
  modelled by returning the list of emitted lines or banner markers.
* Process exit codes are Int; Python truthiness of a returncode is
  (code not equal to 0).
-/

/-- One entry of bld.utest_results: the tuple
(testdriver_node, proc.returncode, stdout, end_time - start_time, source). -/
structure TestResult where
  node : String
  code : Int
  out : String
  time : ℚ
  src : String
deriving DecidableEq, Repr

/-- Truncation toward zero, the conversion a Python percent-d format
applies to a float argument. -/
def py_int (q : ℚ) : Int :=
  if 0 ≤ q then ⌊q⌋ else ⌈q⌉

/-- Zero padding to width 2, the percent-02d format of an integer. -/
def pad2 (n : Int) : String :=
  if (toString n).length < 2 then "0" ++ toString n else toString n

/-- get_time, the inner helper of print_test_summary: divmod(seconds, 60)
followed by the percent-dms or percent-02d:percent-02d rendering. -/
def get_time (seconds : ℚ) : String :=
  let m : Int := ⌊seconds / 60⌋
  let s : ℚ := seconds - 60 * m
  if m = 0 then
    toString (py_int (seconds * 1000)) ++ "ms"
  else
    pad2 m ++ ":" ++ pad2 (py_int s)

/-- print_test_summary: returns the emitted report lines and the number of
test failures (the Python return value tfail). -/
def print_test_summary (lst : List TestResult) (show_test_out : Bool) :
    List String × Nat :=
  let total := lst.length
  let tfail := (lst.filter (fun x => x.code ≠ 0)).length
  let passLines := lst.flatMap (fun x =>
    if x.code = 0 then
      if show_test_out then
        ["[" ++ x.node ++ " (TEST)] <<<<<<<<<<", x.out, ">>>>>>>>>>"]
      else
        [x.node ++ " (" ++ get_time x.time ++ ")"]
    else [])
  let failLines := lst.flatMap (fun x =>
    if x.code ≠ 0 then
      ["[" ++ x.node ++ " (TEST)] <<<<<<<<<<", x.out, ">>>>>>>>>>"]
    else [])
  (["Test Summary",
    "  tests that pass " ++ toString (total - tfail) ++ "/" ++ toString total]
   ++ passLines
   ++ ["  tests that fail " ++ toString tfail ++ "/" ++ toString total]
   ++ failLines,
   tfail)

/-- C4: the duration formatter renders 0 <= t < 60 as the truncated
milliseconds count followed by "ms", and t >= 60 as zero-padded
minutes:seconds, minutes = floor(t/60), seconds = floor(t) - 60*minutes. -/
theorem get_time_spec (t : ℚ) :
    (0 ≤ t → t < 60 → get_time t = toString ⌊t * 1000⌋ ++ "ms") ∧
    (60 ≤ t → get_time t = pad2 ⌊t / 60⌋ ++ ":" ++ pad2 (⌊t⌋ - 60 * ⌊t / 60⌋)) := by
  constructor
  · intro h0 h1
    have hm : ⌊t / 60⌋ = 0 := by
      rw [Int.floor_eq_zero_iff]
      constructor
      · positivity
      · rw [div_lt_one (by norm_num)]
        exact h1
    have hms : py_int (t * 1000) = ⌊t * 1000⌋ := by
      rw [py_int, if_pos (by positivity)]
    simp only [get_time, hm, if_pos rfl, hms, if_true]
  · intro h60
    have hm1 : 1 ≤ ⌊t / 60⌋ := by
      rw [Int.le_floor]
      rw [le_div_iff₀ (by norm_num : (0:ℚ) < 60)]
      push_cast
      linarith
    have hm0 : ⌊t / 60⌋ ≠ 0 := by omega
    have hfl : (⌊t / 60⌋ : ℚ) ≤ t / 60 := Int.floor_le _
    have hmul : ((⌊t / 60⌋ : ℚ)) * 60 ≤ t := by
      rw [← le_div_iff₀ (by norm_num : (0:ℚ) < 60)]
      exact hfl
    have hs0 : (0:ℚ) ≤ t - 60 * (⌊t / 60⌋ : ℚ) := by linarith
    have hsv : py_int (t - 60 * (⌊t / 60⌋ : ℚ)) = ⌊t⌋ - 60 * ⌊t / 60⌋ := by
      rw [py_int, if_pos hs0]
      rw [show (60:ℚ) * (⌊t / 60⌋ : ℚ) = ((60 * ⌊t / 60⌋ : ℤ) : ℚ) by push_cast; ring]
      rw [Int.floor_sub_int]
    simp only [get_time, hm0, if_neg hm0, hsv, if_false]

/-- Witness for C4 at t = 1/4 (250ms) and t = 125 (02:05). -/
theorem get_time_spec_witness :
    get_time (1/4) = "250ms" ∧ get_time 125 = "02:05" := by
  constructor
  · have h := (get_time_spec (1/4)).1 (by norm_num) (by norm_num)
    have hf : (⌊(1/4 : ℚ) * 1000⌋ : Int) = 250 := by norm_num
    rw [h, hf]
    decide
  · have h := (get_time_spec 125).2 (by norm_num)
    have hf1 : (⌊(125 : ℚ) / 60⌋ : Int) = 2 := by
      norm_num [Int.floor_eq_iff]
    have hf2 : (⌊(125 : ℚ)⌋ : Int) = 125 := by norm_num
    rw [h, hf1, hf2]
    decide

/-- C3: with k the number of results whose exit code is nonzero, the
summary reports exactly N-k passing of N and k failing of N, returns k,
and any permutation of the append order reports the same counts and
returns the same value. -/
theorem print_test_summary_counts (lst lst2 : List TestResult) (so : Bool)
    (hp : lst.Perm lst2) :
    (print_test_summary lst so).2 = (lst.filter (fun x => x.code ≠ 0)).length ∧
    ("  tests that pass " ++
        toString (lst.length - (lst.filter (fun x => x.code ≠ 0)).length) ++
        "/" ++ toString lst.length) ∈ (print_test_summary lst so).1 ∧
    ("  tests that fail " ++
        toString (lst.filter (fun x => x.code ≠ 0)).length ++
        "/" ++ toString lst.length) ∈ (print_test_summary lst so).1 ∧
    (print_test_summary lst2 so).2 = (print_test_summary lst so).2 ∧
    ("  tests that pass " ++
        toString (lst.length - (lst.filter (fun x => x.code ≠ 0)).length) ++
        "/" ++ toString lst.length) ∈ (print_test_summary lst2 so).1 ∧
    ("  tests that fail " ++
        toString (lst.filter (fun x => x.code ≠ 0)).length ++
        "/" ++ toString lst.length) ∈ (print_test_summary lst2 so).1 := by
  have hn : lst2.length = lst.length := hp.length_eq.symm
  have hk : (lst2.filter (fun x => x.code ≠ 0)).length =
      (lst.filter (fun x => x.code ≠ 0)).length :=
    (hp.filter (fun x => decide (x.code ≠ 0))).length_eq.symm
  have hk2 : (lst2.filter (fun x => !decide (x.code = 0))).length =
      (lst.filter (fun x => !decide (x.code = 0))).length := by
    simpa using hk
  refine ⟨rfl, ?_, ?_, ?_, ?_, ?_⟩
  · simp [print_test_summary]
  · simp [print_test_summary]
  · simp only [print_test_summary, hk]
  · simp [print_test_summary, hk2, hn]
  · simp [print_test_summary, hk2, hn]

/-- Witness for C3 on the two-element result list swapped. -/
theorem print_test_summary_counts_witness :
    (print_test_summary
        [⟨"a_t", 0, "oa", 1, "a.cpp"⟩, ⟨"b_t", 1, "ob", 70, "b.cpp"⟩]
        false).2 = 1 := by
  have h := print_test_summary_counts
    [⟨"a_t", 0, "oa", 1, "a.cpp"⟩, ⟨"b_t", 1, "ob", 70, "b.cpp"⟩]
    [⟨"b_t", 1, "ob", 70, "b.cpp"⟩, ⟨"a_t", 0, "oa", 1, "a.cpp"⟩]
    false
    (List.Perm.swap (⟨"b_t", 1, "ob", 70, "b.cpp"⟩ : TestResult)
      ⟨"a_t", 0, "oa", 1, "a.cpp"⟩ [])
  rw [h.1]
  decide

/-- The --test command-line choice: none, build or run. -/
inductive TestMode
  | none
  | build
  | run
deriving DecidableEq, Repr

/-- The waf Task runnable-status constants relevant to utest. -/
inductive TaskStatus
  | RUN_ME
  | SKIP_ME
  | ASK_LATER
  | CANCEL_ME
deriving DecidableEq, Repr

/-- utest.runnable_status: the mode gate over the inherited staleness
check.  The second argument is the value the superclass runnable_status
(the staleness engine) would return. -/
def runnable_status (mode : TestMode) (superStatus : TaskStatus) : TaskStatus :=
  let run_test := mode = TestMode.run
  if ¬ run_test then
    TaskStatus.SKIP_ME
  else
    let ret := superStatus
    if ret = TaskStatus.SKIP_ME then
      if run_test then TaskStatus.RUN_ME else ret
    else ret

/-- C5: mode none or build gives SKIP_ME regardless of staleness; in run
mode an up-to-date (SKIP_ME) staleness answer is overridden to RUN_ME and
any other staleness answer passes through unchanged; run mode never
yields SKIP_ME. -/
theorem runnable_status_spec (s : TaskStatus) :
    runnable_status TestMode.none s = TaskStatus.SKIP_ME ∧
    runnable_status TestMode.build s = TaskStatus.SKIP_ME ∧
    runnable_status TestMode.run TaskStatus.SKIP_ME = TaskStatus.RUN_ME ∧
    (s ≠ TaskStatus.SKIP_ME → runnable_status TestMode.run s = s) ∧
    runnable_status TestMode.run s ≠ TaskStatus.SKIP_ME := by
  refine ⟨rfl, rfl, rfl, ?_, ?_⟩ <;> cases s <;> simp [runnable_status]

/-- Witness for C5 at a concrete non-SKIP staleness answer. -/
theorem runnable_status_spec_witness :
    runnable_status TestMode.run TaskStatus.ASK_LATER = TaskStatus.ASK_LATER :=
  (runnable_status_spec TaskStatus.ASK_LATER).2.2.2.1 (by decide)

/-- utest.get_testcmd: the argument vector handed to the external test
runner.  python and runner stand for sys.executable and the runner
script path; junit, valgrind and vtool are the corresponding options. -/
def get_testcmd (python runner : String) (test_v test_timeout test_j : Nat)
    (abspath : String) (junit : Bool) (valgrind : Bool) (vtool : String) :
    List String :=
  let testcmd :=
    [python, runner,
     "--verbosity=" ++ toString test_v,
     "--timeout=" ++ toString test_timeout,
     "-j" ++ toString test_j,
     abspath]
  let testcmd :=
    if junit then testcmd ++ ["--junit=" ++ abspath ++ "-junit.xml"] else testcmd
  if valgrind then
    testcmd ++ ["--valgrind", "--valgrind-tool=" ++ vtool]
  else testcmd

/-- C10: with the junit toggle on, the command line contains the junit
flag whose path is exactly the binary's absolute path with -junit.xml
appended; with the toggle off, the command line is exactly the base
vector plus the optional valgrind part, with no junit element inserted. -/
theorem get_testcmd_junit_spec (python runner : String)
    (test_v test_timeout test_j : Nat) (abspath : String)
    (valgrind : Bool) (vtool : String) :
    ("--junit=" ++ abspath ++ "-junit.xml") ∈
        get_testcmd python runner test_v test_timeout test_j abspath
          true valgrind vtool ∧
    get_testcmd python runner test_v test_timeout test_j abspath
        false valgrind vtool =
      [python, runner,
       "--verbosity=" ++ toString test_v,
       "--timeout=" ++ toString test_timeout,
       "-j" ++ toString test_j,
       abspath] ++
      (if valgrind then ["--valgrind", "--valgrind-tool=" ++ vtool] else []) := by
  constructor
  · cases valgrind <;> simp [get_testcmd]
  · cases valgrind <;> simp [get_testcmd]

/-- Observable outcome of post_build_fun: whether ctx.fatal was called,
the accumulated error message variable, the Logs.info lines, and the
final value of the is_coverage_success local (none when coverage is
disabled). -/
structure PostBuildOutcome where
  fatal : Bool
  error_msg : String
  infos : List String
  coverage_success : Option Bool
deriving DecidableEq, Repr

/-- post_build_fun: the finalization callback.  gen_result stands for the
value generate_coverage_report(ctx) returns when coverage is enabled.
The source assigns that value to is_coverage_success and immediately
reassigns is_coverage_success = False; the coverage branch never touches
is_success. -/
def post_build_fun (lst : List TestResult) (show_test_out : Bool)
    (with_coverage : Bool) (gen_result : Bool) : PostBuildOutcome :=
  let is_success := true
  let num_test_failures := (print_test_summary lst show_test_out).2
  let error_msg := ""
  let step1 : String × Bool × List String :=
    if num_test_failures > 0 then
      (error_msg ++ "Some tests have failed.", false, [])
    else
      (error_msg, is_success, ["All tests passed."])
  let error_msg := step1.1
  let is_success := step1.2.1
  let infos := step1.2.2
  let covState : Option Bool :=
    if with_coverage then
      let is_coverage_success := gen_result
      let is_coverage_success := false
      some is_coverage_success
    else none
  let error_msg :=
    match covState with
    | some c => if !c then error_msg ++ "\nFailed to generate coverage report." else error_msg
    | none => error_msg
  { fatal := !is_success
    error_msg := error_msg
    infos := infos
    coverage_success := covState }

/-- C2: whenever coverage is enabled, post_build_fun overwrites the
coverage generator's returned success value with failure, so the final
is_coverage_success is false and the failed-to-generate message is
appended to error_msg no matter what the generator returned. -/
theorem post_build_coverage_forced_failure (lst : List TestResult)
    (show_test_out gen_result : Bool) :
    (post_build_fun lst show_test_out true gen_result).coverage_success =
      some false ∧
    ∃ pre, (post_build_fun lst show_test_out true gen_result).error_msg =
      pre ++ "\nFailed to generate coverage report." := by
  constructor
  · rfl
  · by_cases h : (print_test_summary lst show_test_out).2 > 0
    · exact ⟨"Some tests have failed.", by simp [post_build_fun, h]⟩
    · exact ⟨"", by simp [post_build_fun, h]⟩

/-- C1 evaluation: with no test failures, coverage enabled, and coverage
generation failed (as the code itself forces), post_build_fun does not
call ctx.fatal, so the invocation exits zero even though the coverage
error message was accumulated. -/
theorem post_build_no_fatal_on_coverage_failure :
    (post_build_fun [] false true false).fatal = false ∧
    (post_build_fun [] false true false).error_msg =
      "\nFailed to generate coverage report." := by
  constructor <;> rfl

/-- C9: with no accumulated results the summary reports 0/0 passing and
0/0 failing and returns 0, and post_build_fun (coverage disabled)
reports that all tests passed and is not fatal. -/
theorem empty_results_spec (show_test_out gen_result : Bool) :
    (print_test_summary [] show_test_out).2 = 0 ∧
    "  tests that pass 0/0" ∈ (print_test_summary [] show_test_out).1 ∧
    "  tests that fail 0/0" ∈ (print_test_summary [] show_test_out).1 ∧
    (post_build_fun [] show_test_out false gen_result).fatal = false ∧
    "All tests passed." ∈ (post_build_fun [] show_test_out false gen_result).infos := by
  refine ⟨rfl, ?_, ?_, rfl, ?_⟩ <;> simp [print_test_summary, post_build_fun] <;> decide

/-- The five step descriptions of the coverage pipeline, in order. -/
def cov_cmd_descs : List String :=
  ["Building baseline trace file",
   "Building test-run trace file",
   "Combining trace files",
   "Filtering trace file",
   "Generating html pages"]

/-- The while loop of generate_coverage_report.  rc gives each step's
exit code; the first component of the result is is_success, the second
the 1-based step numbers whose banner was printed into the log file
(a banner is printed just before its step is executed).  The first
argument counts the remaining iterations (cmd_len - cmd_idx). -/
def cov_loop (rc : Nat → Int) : Nat → Nat → Bool × List Nat
  | 0, _ => (true, [])
  | n + 1, idx =>
    if rc idx ≠ 0 then (false, [idx + 1])
    else
      let p := cov_loop rc n (idx + 1)
      (p.1, (idx + 1) :: p.2)

/-- generate_coverage_report, abstracted over the exit codes of the five
external commands it spawns. -/
def generate_coverage_report (rc : Nat → Int) : Bool × List Nat :=
  cov_loop rc cov_cmd_descs.length 0

/-- C7: if the pipeline's first failing step is step i+1 (0-based i),
the generator returns failure and the log holds banners exactly for
steps 1..i+1, so no later step was started. -/
theorem generate_coverage_report_fail_fast (rc : Nat → Int) (i : Nat)
    (hi : i < 5) (hfail : rc i ≠ 0) (hok : ∀ j, j < i → rc j = 0) :
    generate_coverage_report rc = (false, List.range' 1 (i + 1)) := by
  interval_cases i <;>
    simp [generate_coverage_report, cov_cmd_descs, cov_loop, hfail,
      hok 0, hok 1, hok 2, hok 3, List.range']

/-- Witness for C7: step 3 of 5 fails, banners only for steps 1-3. -/
theorem generate_coverage_report_fail_fast_witness :
    generate_coverage_report (fun j => if j = 2 then 1 else 0) =
      (false, [1, 2, 3]) := by
  have h := generate_coverage_report_fail_fast
    (fun j => if j = 2 then 1 else 0) 2
    (by norm_num) (by norm_num) (by intro j hj; interval_cases j <;> norm_num)
  rw [h]
  rfl

/-- A task generator of the build graph, reduced to what run() reads:
the directory of its link task's first output, when it has a link task. -/
structure TaskGen where
  link_output_dir : Option String
deriving DecidableEq, Repr

/-- The body of the inner loop of run(): append the directory unless it
is already present. -/
def dir_insert (lst : List String) (s : String) : List String :=
  if s ∈ lst then lst else lst ++ [s]

/-- One task generator's contribution to the directory list. -/
def tg_step (lst : List String) (tg : TaskGen) : List String :=
  match tg.link_output_dir with
  | some s => dir_insert lst s
  | none => lst

/-- The nested loop of run() over bld.groups collecting link-output
directories in encounter order without duplicates. -/
def collect_link_dirs (groups : List (List TaskGen)) : List String :=
  groups.foldl (fun lst g => g.foldl tg_step lst) []

/-- The link-output directories in raw encounter order, duplicates kept. -/
def raw_link_dirs (groups : List (List TaskGen)) : List String :=
  groups.flatMap (fun g => g.filterMap (fun tg => tg.link_output_dir))

/-- The platform cases distinguished by run(). -/
inductive Platform
  | win32
  | darwin
  | other
deriving DecidableEq, Repr

/-- os.pathsep of each platform. -/
def pathsep : Platform → String
  | Platform.win32 => ";"
  | _ => ":"

/-- add_path of run(): set dct[var] to the separator-join of the
directory list followed by the ambient value of var (empty when unset).
env is the ambient os.environ the source reads the old value from. -/
def add_path (sep : String) (env : String → Option String)
    (dct : String → Option String) (lst : List String) (var : String) :
    String → Option String :=
  fun v =>
    if v = var then
      some (String.intercalate sep (lst ++ [(env var).getD ""]))
    else dct v

/-- The environment construction of run(): a copy of the ambient
environment with the collected directory list prepended to the
platform's library path variables. -/
def resolve_test_env (env : String → Option String)
    (groups : List (List TaskGen)) (p : Platform) : String → Option String :=
  let fu := env
  let lst := collect_link_dirs groups
  let sep := pathsep p
  match p with
  | Platform.win32 => add_path sep env fu lst "PATH"
  | Platform.darwin =>
      add_path sep env (add_path sep env fu lst "DYLD_LIBRARY_PATH") lst
        "LD_LIBRARY_PATH"
  | Platform.other => add_path sep env fu lst "LD_LIBRARY_PATH"

theorem foldl_tg_step_eq (g : List TaskGen) (lst : List String) :
    g.foldl tg_step lst =
      (g.filterMap (fun tg => tg.link_output_dir)).foldl dir_insert lst := by
  induction g generalizing lst with
  | nil => rfl
  | cons tg g ih =>
      cases h : tg.link_output_dir <;>
        simp [tg_step, h, ih, List.filterMap_cons]

theorem collect_link_dirs_eq (groups : List (List TaskGen)) :
    collect_link_dirs groups = (raw_link_dirs groups).foldl dir_insert [] := by
  suffices h : ∀ acc, groups.foldl (fun lst g => g.foldl tg_step lst) acc =
      (raw_link_dirs groups).foldl dir_insert acc from h []
  induction groups with
  | nil => intro acc; rfl
  | cons g groups ih =>
      intro acc
      rw [List.foldl_cons, foldl_tg_step_eq,
        show raw_link_dirs (g :: groups) =
            g.filterMap (fun tg => tg.link_output_dir) ++ raw_link_dirs groups
          from by simp [raw_link_dirs],
        List.foldl_append]
      exact ih _

theorem foldl_dir_insert_nodup (l : List String) :
    ∀ acc : List String, acc.Nodup → (l.foldl dir_insert acc).Nodup := by
  induction l with
  | nil => intro acc h; exact h
  | cons a l ih =>
      intro acc h
      simp only [List.foldl_cons]
      by_cases ha : a ∈ acc
      · rw [dir_insert, if_pos ha]; exact ih acc h
      · rw [dir_insert, if_neg ha]
        exact ih _ (by simp [List.nodup_append, h, ha])

theorem foldl_dir_insert_mem (l : List String) :
    ∀ (acc : List String) (x : String),
      x ∈ l.foldl dir_insert acc ↔ x ∈ acc ∨ x ∈ l := by
  induction l with
  | nil => intro acc x; simp
  | cons a l ih =>
      intro acc x
      simp only [List.foldl_cons]
      rw [ih]
      by_cases ha : a ∈ acc
      · rw [dir_insert, if_pos ha]
        constructor
        · rintro (h | h)
          · exact Or.inl h
          · exact Or.inr (List.mem_cons_of_mem _ h)
        · rintro (h | h)
          · exact Or.inl h
          · rcases List.mem_cons.mp h with h | h
            · exact Or.inl (h ▸ ha)
            · exact Or.inr h
      · rw [dir_insert, if_neg ha]
        simp only [List.mem_append, List.mem_singleton, List.mem_cons]
        tauto

theorem foldl_dir_insert_sublist (l : List String) :
    ∀ acc : List String,
      ∃ t, l.foldl dir_insert acc = acc ++ t ∧ t.Sublist l := by
  induction l with
  | nil => intro acc; exact ⟨[], by simp⟩
  | cons a l ih =>
      intro acc
      simp only [List.foldl_cons]
      by_cases ha : a ∈ acc
      · rw [dir_insert, if_pos ha]
        obtain ⟨t, ht, hs⟩ := ih acc
        exact ⟨t, ht, hs.cons a⟩
      · rw [dir_insert, if_neg ha]
        obtain ⟨t, ht, hs⟩ := ih (acc ++ [a])
        exact ⟨a :: t, by simpa using ht, hs.cons₂ a⟩

/-- C6: the resolver keeps the ambient environment except that the
collected directory list - raw encounter order with duplicates removed,
hence a duplicate-free stable sublist of the raw encounter list - is
prepended, joined by the platform path separator, to PATH on win32, to
both DYLD_LIBRARY_PATH and LD_LIBRARY_PATH on darwin, and to
LD_LIBRARY_PATH elsewhere; resolving twice over the same build graph
yields the same entries. -/
theorem resolve_test_env_spec (env : String → Option String)
    (groups : List (List TaskGen)) :
    (collect_link_dirs groups).Nodup ∧
    (∀ x, x ∈ collect_link_dirs groups ↔ x ∈ raw_link_dirs groups) ∧
    (collect_link_dirs groups).Sublist (raw_link_dirs groups) ∧
    resolve_test_env env groups Platform.win32 "PATH" =
      some (String.intercalate ";"
        (collect_link_dirs groups ++ [(env "PATH").getD ""])) ∧
    (∀ v, v ≠ "PATH" →
      resolve_test_env env groups Platform.win32 v = env v) ∧
    resolve_test_env env groups Platform.darwin "DYLD_LIBRARY_PATH" =
      some (String.intercalate ":"
        (collect_link_dirs groups ++ [(env "DYLD_LIBRARY_PATH").getD ""])) ∧
    resolve_test_env env groups Platform.darwin "LD_LIBRARY_PATH" =
      some (String.intercalate ":"
        (collect_link_dirs groups ++ [(env "LD_LIBRARY_PATH").getD ""])) ∧
    (∀ v, v ≠ "DYLD_LIBRARY_PATH" → v ≠ "LD_LIBRARY_PATH" →
      resolve_test_env env groups Platform.darwin v = env v) ∧
    resolve_test_env env groups Platform.other "LD_LIBRARY_PATH" =
      some (String.intercalate ":"
        (collect_link_dirs groups ++ [(env "LD_LIBRARY_PATH").getD ""])) ∧
    (∀ v, v ≠ "LD_LIBRARY_PATH" →
      resolve_test_env env groups Platform.other v = env v) ∧
    (∀ p, resolve_test_env env groups p = resolve_test_env env groups p) := by
  obtain ⟨t, ht, hs⟩ := foldl_dir_insert_sublist (raw_link_dirs groups) []
  have hsub : (collect_link_dirs groups).Sublist (raw_link_dirs groups) := by
    rw [collect_link_dirs_eq, ht]
    simpa using hs
  refine ⟨?_, ?_, hsub, ?_, ?_, ?_, ?_, ?_, ?_, ?_, fun _ => rfl⟩
  · rw [collect_link_dirs_eq]
    exact foldl_dir_insert_nodup _ [] List.nodup_nil
  · intro x
    rw [collect_link_dirs_eq, foldl_dir_insert_mem]
    simp
  · simp [resolve_test_env, add_path, pathsep]
  · intro v hv
    simp [resolve_test_env, add_path, pathsep, hv]
  · simp [resolve_test_env, add_path, pathsep]
  · simp [resolve_test_env, add_path, pathsep]
  · intro v hv1 hv2
    simp [resolve_test_env, add_path, pathsep, hv1, hv2]
  · simp [resolve_test_env, add_path, pathsep]
  · intro v hv
    simp [resolve_test_env, add_path, pathsep, hv]

/-- Witness for C6 on a concrete two-group build graph with a repeated
directory and an unset ambient environment. -/
theorem resolve_test_env_spec_witness :
    resolve_test_env (fun _ => none)
        [[⟨some "/a"⟩, ⟨none⟩], [⟨some "/b"⟩, ⟨some "/a"⟩]]
        Platform.win32 "HOME" = none := by
  have h := (resolve_test_env_spec (fun _ => none)
      [[⟨some "/a"⟩, ⟨none⟩], [⟨some "/b"⟩, ⟨some "/a"⟩]]).2.2.2.2.1
    "HOME" (by decide)
  simpa using h

/-- The shared bld.utest_results attribute: absent before the first
append (reading it raises AttributeError), a list thereafter. -/
def ResultSetState := Option (List TestResult)

/-- The critical section run() executes under testlock: try to append to
bld.utest_results, on AttributeError create it as the one-element list.
The lock makes the whole section one atomic step. -/
def append_result (st : ResultSetState) (r : TestResult) : ResultSetState :=
  match st with
  | none => some [r]
  | some l => some (l ++ [r])

/-- Number of results held by the shared attribute. -/
def result_size (st : ResultSetState) : Nat :=
  match st with
  | none => 0
  | some l => l.length

/-- ops is one possible scheduling of the per-worker result sequences:
at each step some worker whose sequence is nonempty performs its next
append.  seqs holds the remaining sequence of each worker. -/
inductive Interleaving : List (List TestResult) → List TestResult → Prop
  | done (seqs : List (List TestResult)) (h : ∀ l ∈ seqs, l = []) :
      Interleaving seqs []
  | step (seqs : List (List TestResult)) (i : Nat) (r : TestResult)
      (tl : List TestResult) (ops : List TestResult)
      (hget : seqs[i]? = some (r :: tl))
      (hrest : Interleaving (seqs.set i tl) ops) :
      Interleaving seqs (r :: ops)

theorem sum_lengths_set (seqs : List (List TestResult)) :
    ∀ (i : Nat) (r : TestResult) (tl : List TestResult),
      seqs[i]? = some (r :: tl) →
      ((seqs.set i tl).map List.length).sum + 1 =
        (seqs.map List.length).sum := by
  induction seqs with
  | nil => intro i r tl h; simp at h
  | cons a seqs ih =>
      intro i r tl h
      cases i with
      | zero =>
          simp only [List.getElem?_cons_zero, Option.some_inj] at h
          subst h
          simp [List.set]
          ring
      | succ i =>
          simp only [List.getElem?_cons_succ] at h
          simp only [List.set, List.map_cons, List.sum_cons]
          rw [← ih i r tl h]
          ring

theorem interleaving_length (seqs : List (List TestResult))
    (ops : List TestResult) (h : Interleaving seqs ops) :
    ops.length = (seqs.map List.length).sum := by
  induction h with
  | done seqs h =>
      simp only [List.length_nil]
      symm
      apply List.sum_eq_zero
      intro x hx
      obtain ⟨l, hl, rfl⟩ := List.mem_map.mp hx
      rw [h l hl]
      rfl
  | step seqs i r tl ops hget hrest ih =>
      rw [List.length_cons, ih, sum_lengths_set seqs i r tl hget]

theorem foldl_append_result_size (ops : List TestResult) :
    ∀ st : ResultSetState,
      result_size (ops.foldl append_result st) = result_size st + ops.length := by
  induction ops with
  | nil => intro st; simp
  | cons r ops ih =>
      intro st
      rw [List.foldl_cons, ih]
      cases st <;> simp [append_result, result_size] <;> ring

/-- C8: for W >= 2 workers, every interleaving of their append sequences
leaves the shared result set holding exactly one entry per append call:
its size is the total number of appends, none lost, none duplicated. -/
theorem concurrent_append_spec (seqs : List (List TestResult))
    (ops : List TestResult) (hw : 2 ≤ seqs.length)
    (h : Interleaving seqs ops) :
    result_size (ops.foldl append_result none) =
      (seqs.map List.length).sum := by
  rw [foldl_append_result_size, ← interleaving_length seqs ops h]
  simp [result_size]

/-- Witness for C8: two workers, one result each, the second worker's
result appended first. -/
theorem concurrent_append_spec_witness :
    result_size
        ([⟨"b_t", 1, "ob", 70, "b.cpp"⟩, ⟨"a_t", 0, "oa", 1, "a.cpp"⟩].foldl
          append_result none) =
      (([[⟨"a_t", 0, "oa", 1, "a.cpp"⟩], [⟨"b_t", 1, "ob", 70, "b.cpp"⟩]] :
          List (List TestResult)).map List.length).sum :=
  concurrent_append_spec
    [[⟨"a_t", 0, "oa", 1, "a.cpp"⟩], [⟨"b_t", 1, "ob", 70, "b.cpp"⟩]]
    [⟨"b_t", 1, "ob", 70, "b.cpp"⟩, ⟨"a_t", 0, "oa", 1, "a.cpp"⟩]
    (by decide)
    (Interleaving.step _ 1 ⟨"b_t", 1, "ob", 70, "b.cpp"⟩ [] _ rfl
      (Interleaving.step _ 0 ⟨"a_t", 0, "oa", 1, "a.cpp"⟩ [] _ rfl
        (Interleaving.done _ (by simp))))
